import Mathlib

/-!
Verification development for the `ezrpc` RPC-framework core.

The definitions below are a shallow embedding of the Rust sources:

* a small `syn`-like abstract syntax for Rust types and paths, just deep
  enough to express everything `ResultData::new` inspects
  (`src/tower/result_data.rs`);
* `ResultData`, `ResponseData` (the `proc-macros` crate version with the
  three contract shapes) and the older crate's `common_shared_result`
  (`src/tower/response_data.rs`, `proc-macros/src/tower/response_data.rs`);
* `ReceiverType` with its derived total order, the interface-wide supremum
  computed by `Generator::new`, the storage kind from
  `Generator::service_data` and the generated call target from
  `ReceiverType::service_method_call_prefix`
  (`src/tower/generator.rs`, `proc-macros/src/tower/receiver_type.rs`);
* `MethodData::new` together with the `heck` CamelCase normalisation of
  method names (`src/tower/method_data.rs`);
* the semantics of the generated outcome conversions
  (`ResultData::conversion_to_result`, `ResultData::conversion_from_result`);
* the `Dispatcher` pending-request table with its two `Sink::start_send`
  transitions (`src/common/dispatcher.rs`), where the `HashMap` is modelled
  as an association list with pairwise-distinct keys;
* the `MutexStateMachine` poll-style lock (`src/util/mutex_state_machine.rs`),
  where the inner future's readiness is an explicit oracle parameter and a
  run-time panic is modelled as `Option.none`.
-/

/- ## A `syn`-like abstract syntax for Rust types

`Ty.path` models `syn::Type::Path` (a qualified-self marker, a leading
`::` marker, and a list of segments each carrying an identifier and its
path arguments).  `Ty.notPath` models every other `syn::Type`, identified
by an opaque tag; tag `0` is reserved for the unit tuple type `()`. -/

mutual

inductive Ty where
  | path (qselfPresent : Bool) (leadingColon : Bool) (segments : SegList)
  | notPath (tag : Nat)
  deriving DecidableEq

inductive SegList where
  | nil
  | cons (ident : String) (args : PathArgs) (rest : SegList)
  deriving DecidableEq

inductive PathArgs where
  | noArgs
  | parenthesized
  | angleBracketed (args : ArgList)
  deriving DecidableEq

inductive ArgList where
  | nil
  | cons (head : GenArg) (rest : ArgList)
  deriving DecidableEq

inductive GenArg where
  | typeArg (t : Ty)
  | nonTypeArg (tag : Nat)
  deriving DecidableEq

end

/-- The unit tuple type `()` (what `parse_quote! { () }` produces). -/
def unitTy : Ty := Ty.notPath 0

/-- A function's declared return type, as in `syn::ReturnType`. -/
inductive ReturnType where
  | default
  | type (t : Ty)
  deriving DecidableEq

/- ## `ResultData` (`src/tower/result_data.rs`) -/

/-- Representation of a function's return type as a result: either not a
`Result` (the bare type is stored), or a `Result` with its `Ok` and `Err`
types extracted. -/
inductive ResultData where
  | notResult (t : Ty)
  | result (okType errType : Ty)
  deriving DecidableEq

/-- The `Ok` type, or the bare return type if it is not a `Result`
(`ResultData::ok_type`). -/
def ResultData.ok_type : ResultData → Ty
  | ResultData.notResult t => t
  | ResultData.result okType _ => okType

/-- The `Err` type, if the return type is a `Result`
(`ResultData::err_type`). -/
def ResultData.err_type : ResultData → Option Ty
  | ResultData.notResult _ => none
  | ResultData.result _ errType => some errType

/-- Extraction of the type arguments of a path that is either `Result` or
`std::result::Result` (`ResultData::extract_result_type_arguments`).  The
first branch fires when the first segment is named `Result` and the path
has no leading colons; otherwise the second and third segments are
consulted and must spell `std`, `result`, `Result`. -/
def extract_result_type_arguments (leadingColon : Bool) :
    SegList → Option PathArgs
  | SegList.nil => none
  | SegList.cons ident1 args1 rest =>
    if ident1 = "Result" ∧ leadingColon = false then
      some args1
    else
      match rest with
      | SegList.nil => none
      | SegList.cons ident2 _ rest2 =>
        match rest2 with
        | SegList.nil => none
        | SegList.cons ident3 args3 _ =>
          if ident1 = "std" ∧ ident2 = "result" ∧ ident3 = "Result" then
            some args3
          else
            none

/-- The second half of `ResultData::extract_result_type`: build a
`ResultData.result` from a path's extracted type arguments, which must be
angle-bracketed, exactly two, and both types. -/
def extract_from_arguments : PathArgs → Option ResultData
  | PathArgs.angleBracketed
      (ArgList.cons (GenArg.typeArg okType)
        (ArgList.cons (GenArg.typeArg errType) ArgList.nil)) =>
    some (ResultData.result okType errType)
  | _ => none

/-- `ResultData::extract_result_type`: extract the type arguments of a
`Result` path and build the `ResultData.result` from them. -/
def extract_result_type (leadingColon : Bool) (segments : SegList) :
    Option ResultData :=
  match extract_result_type_arguments leadingColon segments with
  | none => none
  | some typeArguments => extract_from_arguments typeArguments

/-- Classification of an actual (declared) return type
(`ResultData::parse_actual_return_type`): only a path type without a
qualified self is examined, every other type is `notResult`. -/
def parse_actual_return_type (returnType : Ty) : ResultData :=
  match returnType with
  | Ty.path qselfPresent leadingColon segments =>
    if qselfPresent then
      ResultData.notResult returnType
    else
      (extract_result_type leadingColon segments).getD
        (ResultData.notResult returnType)
  | Ty.notPath _ => ResultData.notResult returnType

/-- `ResultData::new`: a function with no declared return type gets the
unit type; otherwise the declared type is classified. -/
def ResultData.new : ReturnType → ResultData
  | ReturnType.default => ResultData.notResult unitTy
  | ReturnType.type actualReturnType => parse_actual_return_type actualReturnType

/- ## `ReceiverType` (`src/tower/receiver_type.rs`) -/

/-- The receiver type of a method; the derived Rust `Ord` instance orders
the constructors in declaration order:
`NoReceiver < Reference < MutableReference`.  `NoReceiver` realises the
spec's `NoAccess`, `Reference` realises `SharedRead`, and
`MutableReference` realises `ExclusiveWrite`. -/
inductive ReceiverType where
  | noReceiver
  | reference
  | mutableReference
  deriving DecidableEq

/-- Rank of a receiver type in the derived total order. -/
def ReceiverType.rank : ReceiverType → Nat
  | ReceiverType.noReceiver => 0
  | ReceiverType.reference => 1
  | ReceiverType.mutableReference => 2

/-- Binary maximum in the derived total order, as computed by one step of
`Iterator::max` (on a tie the later element is kept, which is
value-irrelevant for a `Copy` enum). -/
def ReceiverType.maxStep (acc next : ReceiverType) : ReceiverType :=
  if acc.rank ≤ next.rank then next else acc

/-- `methods.iter().map(MethodData::receiver_type).max()` as evaluated in
`Generator::new`: `none` on an empty list, otherwise the fold of
`ReceiverType.maxStep`. -/
def maxReceiverType : List ReceiverType → Option ReceiverType
  | [] => none
  | first :: rest => some (rest.foldl ReceiverType.maxStep first)

/- ## Method arguments and `MethodData::new` (`src/tower/method_data.rs`) -/

/-- A function argument, as in `syn::FnArg`: either a receiver (with
markers for a `&` reference and for `mut`), or a typed
pattern-plus-type argument. -/
inductive FnArg where
  | receiver (hasReference : Bool) (mutable : Bool)
  | typed (pattern : String) (ty : Ty)
  deriving DecidableEq

/-- `ReceiverType::new`: the first receiver argument decides; an owned
(`self` without `&`) receiver aborts code generation, modelled as `none`. -/
def ReceiverType.new : List FnArg → Option ReceiverType
  | [] => some ReceiverType.noReceiver
  | FnArg.receiver hasReference mutable :: _ =>
    if hasReference then
      if mutable then some ReceiverType.mutableReference
      else some ReceiverType.reference
    else
      none
  | FnArg.typed _ _ :: rest => ReceiverType.new rest

/-- Split a character list at underscores (word separators of a Rust
snake_case identifier). -/
def splitUnderscore : List Char → List (List Char)
  | [] => [[]]
  | c :: cs =>
    match splitUnderscore cs with
    | [] => [[c]]
    | w :: ws => if c = '_' then [] :: w :: ws else (c :: w) :: ws

/-- Uppercase the first character of a word. -/
def capitalizeWord : List Char → List Char
  | [] => []
  | c :: cs => c.toUpper :: cs

/-- Modelled from the `heck` crate's `to_camel_case`, restricted to the
identifiers this development feeds it (lowercase ASCII words joined by
underscores): split at underscores, drop empty words, uppercase each
word's first letter and concatenate. -/
def camelCase (s : String) : String :=
  String.mk (((splitUnderscore s.data).filter (· ≠ [])).map capitalizeWord).flatten

/-- Representation of a function parameter
(`proc-macros/src/tower/parameter_data.rs`): the binding pattern and the
parameter type. -/
structure ParameterData where
  pattern : String
  parameterType : Ty
  deriving DecidableEq

/-- `ParameterData::new`. -/
def ParameterData.new (pattern : String) (ty : Ty) : ParameterData :=
  { pattern := pattern, parameterType := ty }

/-- A method of the input `impl` block, as in `syn::ImplItemMethod`:
its signature's asyncness, identifier, argument list and return type. -/
structure ImplItemMethod where
  asynchronous : Bool
  ident : String
  inputs : List FnArg
  output : ReturnType
  deriving DecidableEq

/-- An item of the input `impl` block: a method, or anything else
(constants, associated types, ...), which `Generator::new` skips. -/
inductive ImplItem where
  | methodItem (method : ImplItemMethod)
  | otherItem (tag : Nat)
  deriving DecidableEq

/-- Representation of a method's metadata (`MethodData`). -/
structure MethodData where
  asynchronous : Bool
  name : String
  receiverType : ReceiverType
  requestName : String
  parameters : List ParameterData
  result : ResultData
  deriving DecidableEq

/-- `MethodData::new`: derives the receiver type (propagating the abort on
owned receivers as `none`), normalises the method name to CamelCase for
the request variant name, collects the typed parameters and classifies
the return type. -/
def MethodData.new (method : ImplItemMethod) : Option MethodData :=
  match ReceiverType.new method.inputs with
  | none => none
  | some receiverType =>
    some
      { asynchronous := method.asynchronous
        name := method.ident
        receiverType := receiverType
        requestName := camelCase method.ident
        parameters :=
          (method.inputs.filterMap fun
            | FnArg.receiver _ _ => none
            | FnArg.typed pattern ty => some (ParameterData.new pattern ty))
        result := ResultData.new method.output }

/- ## `ResponseData` (`proc-macros/src/tower/response_data.rs`) -/

/-- Representation of the RPC response type: the unified response
contract.  `shared` carries one common result; `disjointWithSharedError`
wraps each method's success type in a named variant and shares one error
type; `fullyDisjoint` wraps each method's entire result in a named
variant. -/
inductive ResponseData where
  | shared (result : ResultData)
  | disjointWithSharedError (outputs : List (String × Ty)) (error : Ty)
  | fullyDisjoint (results : List (String × ResultData))
  deriving DecidableEq

/-- `ResponseData::common_shared_error`: on an empty error list the unit
type is the shared error; otherwise all error types must coincide with
the first. -/
def common_shared_error : List Ty → Option Ty
  | [] => some unitTy
  | firstErrorType :: errorTypes =>
    if errorTypes.all (· = firstErrorType) then some firstErrorType else none

/-- One `try_fold` step chain of `ResponseData::common_shared_result`
(`proc-macros` version, where a failed convergence yields `none`). -/
def sharedResultFold (current : ResultData) : List ResultData → Option ResultData
  | [] => some current
  | next :: rest =>
    if current = next then
      sharedResultFold current rest
    else if current.ok_type ≠ next.ok_type then
      none
    else if current.err_type = none then
      sharedResultFold next rest
    else if next.err_type = none then
      sharedResultFold current rest
    else
      none

/-- `ResponseData::common_shared_result` (`proc-macros` version).  The
outer `none` is the `expect` panic on an empty list; `some none` means no
common result exists; `some (some r)` is the shared result. -/
def common_shared_result : List ResultData → Option (Option ResultData)
  | [] => none
  | firstResultData :: rest => some (sharedResultFold firstResultData rest)

/-- `ResponseData::new` (`proc-macros` version): if a common shared error
exists and a common shared result exists, the contract is `shared`; with
only a common error it is `disjointWithSharedError`; with no common error
it is `fullyDisjoint`.  The outer `none` is the panic on an empty method
list. -/
def ResponseData.new (methods : List MethodData) : Option ResponseData :=
  let methodResults := methods.map MethodData.result
  let responseNames := methods.map MethodData.requestName
  let methodOkTypes := methodResults.map ResultData.ok_type
  let methodErrTypes := methodResults.filterMap ResultData.err_type
  match common_shared_error methodErrTypes with
  | some error =>
    match common_shared_result methodResults with
    | none => none
    | some (some result) => some (ResponseData.shared result)
    | some none =>
      some (ResponseData.disjointWithSharedError
        (responseNames.zip methodOkTypes) error)
  | none =>
    some (ResponseData.fullyDisjoint (responseNames.zip methodResults))

/-- `ResponseData::err_type` (`proc-macros` version): the shared result's
error type (unit when absent), the shared error, or unit for the fully
disjoint shape. -/
def ResponseData.errType : ResponseData → Ty
  | ResponseData.shared result => (result.err_type).getD unitTy
  | ResponseData.disjointWithSharedError _ error => error
  | ResponseData.fullyDisjoint _ => unitTy

/- ## The older crate's `ResponseData` and `Generator`
(`src/tower/response_data.rs`, `src/tower/generator.rs`) -/

/-- One `try_fold` step chain of the older `ResponseData::common_shared_result`,
where a failed convergence carries the offending `ResultData` in `Except.error`. -/
def sharedResultFoldE (current : ResultData) :
    List ResultData → Except ResultData ResultData
  | [] => Except.ok current
  | next :: rest =>
    if current = next then
      sharedResultFoldE current rest
    else if current.ok_type ≠ next.ok_type then
      Except.error next
    else if current.err_type = none then
      sharedResultFoldE next rest
    else if next.err_type = none then
      sharedResultFoldE current rest
    else
      Except.error next

/-- The older `ResponseData::common_shared_result` (`src/tower/response_data.rs`);
the outer `none` is the `expect` panic on an empty list. -/
def common_shared_result_old : List ResultData → Option (Except ResultData ResultData)
  | [] => none
  | firstResultData :: rest => some (sharedResultFoldE firstResultData rest)

/-- A generation-time abort of the older crate's `Generator`: the
`abort!` on an `impl` block without methods, the `abort!` on an
incompatible method return type raised by its `ResponseData::new`, and
the `abort!` on an owned receiver raised by `ReceiverType::new`. -/
inductive GenerationAbort where
  | emptyInterface
  | incompatibleReturnType (offending : ResultData)
  | ownedReceiver
  deriving DecidableEq

/-- The generated artifact of `Generator::new` (`src/tower/generator.rs`):
the `impl` block's self type, the per-method metadata, the shared
response result and the most strict receiver type. -/
structure Generator where
  selfType : Ty
  methods : List MethodData
  response : ResultData
  receiverType : ReceiverType
  deriving DecidableEq

/-- The methods of an `impl` block, in declaration order (the
`filter_map` over `item.items` at the start of `Generator::new`). -/
def implMethods (items : List ImplItem) : List ImplItemMethod :=
  items.filterMap fun
    | ImplItem.methodItem method => some method
    | ImplItem.otherItem _ => none

/-- `Generator::new`: filters the `impl` items down to methods, builds
each `MethodData` (propagating the owned-receiver abort), aborts on an
empty method list, derives the shared response via the older
`ResponseData::new` (aborting on an incompatible return type), and takes
the maximum receiver type (the `expect` cannot fire because the method
list was checked to be non-empty). -/
def Generator.new (selfType : Ty) (items : List ImplItem) :
    Except GenerationAbort Generator :=
  match (implMethods items).mapM MethodData.new with
  | none => Except.error GenerationAbort.ownedReceiver
  | some methods =>
    match methods with
    | [] => Except.error GenerationAbort.emptyInterface
    | firstMethod :: restMethods =>
      match sharedResultFoldE firstMethod.result (restMethods.map MethodData.result) with
      | Except.error offending =>
        Except.error (GenerationAbort.incompatibleReturnType offending)
      | Except.ok result =>
        Except.ok
          { selfType := selfType
            methods := firstMethod :: restMethods
            response := result
            receiverType :=
              (restMethods.map MethodData.receiverType).foldl
                ReceiverType.maxStep firstMethod.receiverType }

/-- The variant names of the generated `Request` enum, in declaration
order (`Generator::request` emits one variant per method, named by the
method's `request_name`). -/
def Generator.requestVariantNames (generator : Generator) : List String :=
  generator.methods.map MethodData.requestName

/- ## Generated call targets and service storage
(`proc-macros/src/tower/receiver_type.rs`, `src/tower/generator.rs`) -/

/-- The code emitted in front of a dispatched method call by
`ReceiverType::service_method_call_prefix`: a static call through the
self type, a direct call on the shared `inner` handle, a call through the
read half of the lock (`inner.read().await.`), or a call through the
write half (`inner.write().await.`). -/
inductive CallTarget where
  | staticCall
  | innerDirect
  | innerRead
  | innerWrite
  deriving DecidableEq

/-- `ReceiverType::service_method_call_prefix`, taking the service-wide
receiver type and the method's own receiver type; the `unreachable!` arms
(a method stricter than the service) are modelled as `none`. -/
def serviceMethodCallTarget (serviceReceiverType methodReceiverType : ReceiverType) :
    Option CallTarget :=
  match serviceReceiverType, methodReceiverType with
  | _, ReceiverType.noReceiver => some CallTarget.staticCall
  | ReceiverType.reference, ReceiverType.reference => some CallTarget.innerDirect
  | ReceiverType.mutableReference, ReceiverType.reference => some CallTarget.innerRead
  | ReceiverType.mutableReference, ReceiverType.mutableReference =>
    some CallTarget.innerWrite
  | ReceiverType.noReceiver, _ => none
  | ReceiverType.reference, ReceiverType.mutableReference => none

/-- The storage of the generated `Service` struct
(`Generator::service_data`): no field, `Arc<SelfType>`, or
`Arc<RwLock<SelfType>>`. -/
inductive ServiceStorage where
  | noState
  | arcState
  | arcRwLockState
  deriving DecidableEq

/-- `Generator::service_data`, keyed by the interface-wide receiver type. -/
def serviceData : ReceiverType → ServiceStorage
  | ReceiverType.noReceiver => ServiceStorage.noState
  | ReceiverType.reference => ServiceStorage.arcState
  | ReceiverType.mutableReference => ServiceStorage.arcRwLockState

/- ## Semantics of the generated outcome conversions
(`src/tower/result_data.rs`, `src/tower/method_data.rs`) -/

/-- The native value produced by a method whose outcome has the given
`ResultData`: a bare value for a non-`Result` outcome, a success-or-error
value for a `Result` outcome. -/
def NativeOutcome (resultData : ResultData) (Error Value : Type) : Type :=
  match resultData with
  | ResultData.notResult _ => Value
  | ResultData.result _ _ => Except Error Value

/-- Semantics of the code emitted by `ResultData::conversion_to_result`,
as used by the router's dispatch arm (`MethodData::request_match_arm` via
`MethodData::method_call`): a non-`Result` value is wrapped in `Ok`, a
`Result` value is passed through unchanged. -/
def conversionToResultSem (resultData : ResultData) {Error Value : Type} :
    NativeOutcome resultData Error Value → Except Error Value :=
  match resultData with
  | ResultData.notResult _ => fun value => Except.ok value
  | ResultData.result _ _ => fun value => value

/-- Semantics of the code emitted by `ResultData::conversion_from_result`,
as appended by `MethodData::service_method` to the dispatched call: for a
non-`Result` outcome the generated code is
`.expect("Result data never fails")`, which panics on the error case
(modelled as `none`); for a `Result` outcome the unified result is
returned unchanged. -/
def conversionFromResultSem (resultData : ResultData) {Error Value : Type} :
    Except Error Value → Option (NativeOutcome resultData Error Value) :=
  match resultData with
  | ResultData.notResult _ => fun unified =>
    match unified with
    | Except.ok value => some value
    | Except.error _ => none
  | ResultData.result _ _ => fun unified => some unified

/- ## `MutexStateMachine` (`src/util/mutex_state_machine.rs`)

The in-flight acquisition attempt (`lock_future`) is identified by a
number; `nextAttempt` is a supply of fresh identifiers for the attempts
created by `Mutex::lock_owned`.  The inner future's poll result is an
explicit oracle argument `ready`. -/

structure MutexStateMachine where
  lockFuture : Option Nat
  nextAttempt : Nat
  deriving DecidableEq

/-- `MutexStateMachine::new`: no acquisition attempt is in flight. -/
def MutexStateMachine.mkNew (nextAttempt : Nat) : MutexStateMachine :=
  { lockFuture := none, nextAttempt := nextAttempt }

/-- The attempt a call to `poll_lock` polls:
`self.lock_future.get_or_insert_with(|| data.lock_owned())`, i.e. the
in-flight attempt when present, a fresh one otherwise. -/
def MutexStateMachine.polledAttempt (state : MutexStateMachine) : Nat :=
  state.lockFuture.getD state.nextAttempt

/-- `MutexStateMachine::poll_lock`: polls the (reused or fresh) attempt;
when the oracle reports it ready, the in-flight marker is cleared and the
guard (carrying the attempt that produced it) is returned; otherwise the
attempt stays in flight and no guard is produced. -/
def MutexStateMachine.poll_lock (state : MutexStateMachine) (ready : Bool) :
    Option Nat × MutexStateMachine :=
  let attempt := state.polledAttempt
  let nextAttempt :=
    if state.lockFuture.isSome then state.nextAttempt else state.nextAttempt + 1
  if ready then
    (some attempt, { lockFuture := none, nextAttempt := nextAttempt })
  else
    (none, { lockFuture := some attempt, nextAttempt := nextAttempt })

/-- `MutexStateMachine::clone`: a clone shares the protected data but has
its own, initially idle, acquisition state. -/
def MutexStateMachine.cloneState (state : MutexStateMachine) : MutexStateMachine :=
  { lockFuture := none, nextAttempt := state.nextAttempt }

/- ## `Dispatcher` (`src/common/dispatcher.rs`)

The pending-request `HashMap<Id, Sender<Response>>` is modelled as an
association list whose keys are pairwise distinct; `insertTable` replaces
the value of an existing key (as `HashMap::insert` does) and
`removeTable` removes a key's entry (as `HashMap::remove` does). -/

/-- Lookup in the pending-request table. -/
def lookupTable {Id Slot : Type} [DecidableEq Id] :
    List (Id × Slot) → Id → Option Slot
  | [], _ => none
  | (key, value) :: rest, id =>
    if key = id then some value else lookupTable rest id

/-- `HashMap::insert`: replace the value of an existing key, otherwise
add the entry. -/
def insertTable {Id Slot : Type} [DecidableEq Id] :
    List (Id × Slot) → Id → Slot → List (Id × Slot)
  | [], id, slot => [(id, slot)]
  | (key, value) :: rest, id, slot =>
    if key = id then (id, slot) :: rest
    else (key, value) :: insertTable rest id slot

/-- `HashMap::remove` (dropping the returned value): remove the entry of
the key if present. -/
def removeTable {Id Slot : Type} [DecidableEq Id] :
    List (Id × Slot) → Id → List (Id × Slot)
  | [], _ => []
  | (key, value) :: rest, id =>
    if key = id then rest else (key, value) :: removeTable rest id

/-- A `Dispatcher` handle: the shared pending-request table, and whether
this handle currently holds the table's lock guard (acquired by
`poll_ready`, consumed by `start_send`). -/
structure Dispatcher (Id Slot : Type) where
  pendingRequests : List (Id × Slot)
  guardHeld : Bool
  deriving DecidableEq

/-- The registration transition
(`<Dispatcher as Sink<(Id, Sender<Response>)>>::start_send`): the guard
is taken (its absence is the `expect` panic, modelled as `none`) and the
pair is inserted into the table; the sink never reports an error, so the
inner value is always `Except.ok`. -/
def registrationStartSend {Id Slot : Type} [DecidableEq Id]
    (dispatcher : Dispatcher Id Slot) (id : Id) (sender : Slot) :
    Option (Except Unit (Dispatcher Id Slot)) :=
  if dispatcher.guardHeld then
    some (Except.ok
      { pendingRequests := insertTable dispatcher.pendingRequests id sender
        guardHeld := false })
  else
    none

/-- The resolution transition
(`<Dispatcher as Sink<(Id, Response)>>::start_send`): the guard is taken
(its absence is the `expect` panic, modelled as `none`), the identifier's
entry is removed from the table, and when an entry was present its sender
receives the response (the delivered sender is returned; a send to a
dropped receiver is ignored by the source, so delivery is the removed
sender itself); the sink never reports an error. -/
def resolutionStartSend {Id Slot : Type} [DecidableEq Id]
    (dispatcher : Dispatcher Id Slot) (id : Id) :
    Option (Except Unit (Dispatcher Id Slot × Option Slot)) :=
  if dispatcher.guardHeld then
    some (Except.ok
      ({ pendingRequests := removeTable dispatcher.pendingRequests id
         guardHeld := false },
       lookupTable dispatcher.pendingRequests id))
  else
    none

/-- An operation on the multiplexer: a registration of an identifier with
a completion slot, or a resolution of an identifier (the response payload
itself plays no role in the table's evolution). -/
inductive MuxOp (Id Slot : Type) where
  | reg (id : Id) (sender : Slot)
  | res (id : Id)
  deriving DecidableEq

/-- One multiplexer operation applied to a table, through the
corresponding `start_send` with the lock guard held (the mutex serializes
the two sinks, so every `start_send` runs on the table alone); the second
component records the delivery the operation performed, as the pair of
the identifier and the completion slot that received the response. -/
def muxStep {Id Slot : Type} [DecidableEq Id]
    (table : List (Id × Slot)) :
    MuxOp Id Slot → List (Id × Slot) × Option (Id × Slot)
  | MuxOp.reg id sender =>
    match registrationStartSend { pendingRequests := table, guardHeld := true } id sender with
    | some (Except.ok dispatcher) => (dispatcher.pendingRequests, none)
    | _ => (table, none)
  | MuxOp.res id =>
    match resolutionStartSend { pendingRequests := table, guardHeld := true } id with
    | some (Except.ok (dispatcher, delivered)) =>
      (dispatcher.pendingRequests, delivered.map fun sender => (id, sender))
    | _ => (table, none)

/-- A sequence of multiplexer operations applied to a table, returning
the final table and the log of performed deliveries. -/
def muxRun {Id Slot : Type} [DecidableEq Id]
    (table : List (Id × Slot)) :
    List (MuxOp Id Slot) → List (Id × Slot) × List (Id × Slot)
  | [] => (table, [])
  | op :: ops =>
    let step := muxStep table op
    let rest := muxRun step.1 ops
    (rest.1, step.2.toList ++ rest.2)

/-- Number of registrations of an identifier in an operation sequence. -/
def regCount {Id Slot : Type} [DecidableEq Id]
    (id : Id) (ops : List (MuxOp Id Slot)) : Nat :=
  ops.countP fun
    | MuxOp.reg regId _ => regId = id
    | MuxOp.res _ => false

/-- Number of deliveries to an identifier in a delivery log. -/
def deliveryCount {Id Slot : Type} [DecidableEq Id]
    (id : Id) (log : List (Id × Slot)) : Nat :=
  log.countP fun entry => entry.1 = id

/- ## Derived notions used by the statements below -/

/-- The failure types contributed by the `Fallible` methods of an
interface, in declaration order (the `method_err_types` iterator of
`ResponseData::new`). -/
def methodErrTypes (methods : List MethodData) : List Ty :=
  (methods.map MethodData.result).filterMap ResultData.err_type

/-- The first failure type contributed by a list of method results
(`none` when no method in the list is fallible). -/
def sharedErrHead (results : List ResultData) : Option Ty :=
  (results.filterMap ResultData.err_type).head?

/-- The keys of a pending-request table. -/
def tableKeys {Id Slot : Type} (table : List (Id × Slot)) : List Id :=
  table.map Prod.fst

/-- A table is well formed when its keys are pairwise distinct (the
`HashMap` key-uniqueness invariant). -/
def tableWF {Id Slot : Type} (table : List (Id × Slot)) : Prop :=
  (tableKeys table).Nodup

/-- `1` when the identifier is pending in the table, `0` otherwise. -/
def pendingFlag {Id Slot : Type} [DecidableEq Id]
    (table : List (Id × Slot)) (id : Id) : Nat :=
  if (lookupTable table id).isSome then 1 else 0

/-- The identifiers registered by an operation sequence, in order. -/
def regIds {Id Slot : Type} (ops : List (MuxOp Id Slot)) : List Id :=
  ops.filterMap fun
    | MuxOp.reg id _ => some id
    | MuxOp.res _ => none

/-- Exactly two angle-bracketed generic arguments, both of them types. -/
def twoTypeArgs (args : PathArgs) : Prop :=
  ∃ okType errType,
    args = PathArgs.angleBracketed
      (ArgList.cons (GenArg.typeArg okType)
        (ArgList.cons (GenArg.typeArg errType) ArgList.nil))

/-- Stated from the spec's words, for comparison with the code: the
return type is written syntactically as the path `Result<T, E>` with no
leading colons, or as the path `std::result::Result<T, E>`, in either
case with exactly two angle-bracketed generic type arguments. -/
def specClaimFallibleShape (returnTy : ReturnType) : Prop :=
  (∃ args, twoTypeArgs args ∧
    returnTy = ReturnType.type
      (Ty.path false false (SegList.cons "Result" args SegList.nil)))
  ∨ (∃ args, twoTypeArgs args ∧
    returnTy = ReturnType.type
      (Ty.path false false
        (SegList.cons "std" PathArgs.noArgs
          (SegList.cons "result" PathArgs.noArgs
            (SegList.cons "Result" args SegList.nil)))))

/-- The shapes `ResultData::new` actually classifies as `Result`: a path
type without a qualified self whose first segment is `Result` (with no
leading colons) carrying exactly two angle-bracketed type arguments, or
whose first three segments are `std`, `result`, `Result` with the third
carrying exactly two angle-bracketed type arguments — regardless, in the
second form, of leading colons and of anything after the examined
segments. -/
def codeFallibleShape (returnTy : ReturnType) : Prop :=
  ∃ leadingColon segments,
    returnTy = ReturnType.type (Ty.path false leadingColon segments) ∧
    ((∃ args rest, segments = SegList.cons "Result" args rest ∧
        leadingColon = false ∧ twoTypeArgs args)
    ∨ (∃ stdArgs resultArgs args rest,
        segments =
          SegList.cons "std" stdArgs
            (SegList.cons "result" resultArgs
              (SegList.cons "Result" args rest)) ∧ twoTypeArgs args))

/- ## Concrete inputs used by counterexamples and witnesses -/

/-- An opaque non-path type, distinct from `unitTy` for positive tags. -/
def opaqueTy (tag : Nat) : Ty := Ty.notPath tag

/-- The angle-bracketed argument pair `<opaqueTy 1, opaqueTy 2>`. -/
def demoArgs : PathArgs :=
  PathArgs.angleBracketed
    (ArgList.cons (GenArg.typeArg (opaqueTy 1))
      (ArgList.cons (GenArg.typeArg (opaqueTy 2)) ArgList.nil))

/-- The return type `::std::result::Result<opaqueTy 1, opaqueTy 2>` —
qualified with leading colons, hence not one of the two writings the
claim allows. -/
def colonStdResultTy : Ty :=
  Ty.path false true
    (SegList.cons "std" PathArgs.noArgs
      (SegList.cons "result" PathArgs.noArgs
        (SegList.cons "Result" demoArgs SegList.nil)))

/-- A method `fn foo_bar(&self)`. -/
def fooBarMethod : ImplItemMethod :=
  { asynchronous := false
    ident := "foo_bar"
    inputs := [FnArg.receiver true false]
    output := ReturnType.default }

/-- A method `fn foo_bar_(&self)` — a distinct Rust identifier whose
CamelCase normalisation collides with `foo_bar`'s. -/
def fooBarTrailingMethod : ImplItemMethod :=
  { asynchronous := false
    ident := "foo_bar_"
    inputs := [FnArg.receiver true false]
    output := ReturnType.default }

/-- An `impl` block with the two colliding methods. -/
def duplicateNameItems : List ImplItem :=
  [ImplItem.methodItem fooBarMethod, ImplItem.methodItem fooBarTrailingMethod]

/-- A method `fn writer(&mut self)` requiring exclusive write access. -/
def writerMethod : ImplItemMethod :=
  { asynchronous := false
    ident := "writer"
    inputs := [FnArg.receiver true true]
    output := ReturnType.default }

/-- A method `fn reader(&self)` requiring shared read access. -/
def readerMethod : ImplItemMethod :=
  { asynchronous := false
    ident := "reader"
    inputs := [FnArg.receiver true false]
    output := ReturnType.default }

/-- An `impl` block mixing an exclusive-write and a shared-read method. -/
def mixedAccessItems : List ImplItem :=
  [ImplItem.methodItem writerMethod, ImplItem.methodItem readerMethod]

/-- A demo operation sequence with pairwise-distinct registered
identifiers, containing a resolution of an unknown identifier. -/
def demoMuxOps : List (MuxOp Nat Nat) :=
  [MuxOp.reg 1 100, MuxOp.reg 2 200, MuxOp.res 1, MuxOp.res 3, MuxOp.res 2]

/-- A method outcome model `Fallible{opaqueTy 3, opaqueTy 1}` under the
variant name `Alpha`. -/
def alphaMethodData : MethodData :=
  { asynchronous := false
    name := "alpha"
    receiverType := ReceiverType.noReceiver
    requestName := "Alpha"
    parameters := []
    result := ResultData.result (opaqueTy 3) (opaqueTy 1) }

/-- A method outcome model `Fallible{opaqueTy 3, opaqueTy 2}` under the
variant name `Beta` — same success type as `Alpha`, different failure
type. -/
def betaMethodData : MethodData :=
  { asynchronous := false
    name := "beta"
    receiverType := ReceiverType.noReceiver
    requestName := "Beta"
    parameters := []
    result := ResultData.result (opaqueTy 3) (opaqueTy 2) }

/-- A `Plain(opaqueTy 3)` method outcome model under the variant name
`Gamma`. -/
def gammaMethodData : MethodData :=
  { asynchronous := false
    name := "gamma"
    receiverType := ReceiverType.noReceiver
    requestName := "Gamma"
    parameters := []
    result := ResultData.notResult (opaqueTy 3) }

/-- Two methods with the same success type but two distinct failure
types. -/
def demoDisjointMethods : List MethodData := [alphaMethodData, betaMethodData]

/-- A plain method and a fallible method converging on one success type
and one failure type. -/
def demoSharedMethods : List MethodData := [gammaMethodData, alphaMethodData]

/-- The `MethodData` built for `fooBarMethod`. -/
def fooBarData : MethodData :=
  { asynchronous := false
    name := "foo_bar"
    receiverType := ReceiverType.reference
    requestName := "FooBar"
    parameters := []
    result := ResultData.notResult unitTy }

/-- The `MethodData` built for `fooBarTrailingMethod`. -/
def fooBarTrailingData : MethodData :=
  { asynchronous := false
    name := "foo_bar_"
    receiverType := ReceiverType.reference
    requestName := "FooBar"
    parameters := []
    result := ResultData.notResult unitTy }

/-- The `MethodData` built for `writerMethod`. -/
def writerData : MethodData :=
  { asynchronous := false
    name := "writer"
    receiverType := ReceiverType.mutableReference
    requestName := "Writer"
    parameters := []
    result := ResultData.notResult unitTy }

/-- The `MethodData` built for `readerMethod`. -/
def readerData : MethodData :=
  { asynchronous := false
    name := "reader"
    receiverType := ReceiverType.reference
    requestName := "Reader"
    parameters := []
    result := ResultData.notResult unitTy }

/-- The artifact `Generator::new` produces for `mixedAccessItems`. -/
def mixedGenerator : Generator :=
  { selfType := unitTy
    methods := [writerData, readerData]
    response := ResultData.notResult unitTy
    receiverType := ReceiverType.mutableReference }

/- ## Theorems: pending-request table basics -/

theorem lookupTable_insertTable {Id Slot : Type} [DecidableEq Id]
    (table : List (Id × Slot)) (id id' : Id) (slot : Slot) :
    lookupTable (insertTable table id slot) id' =
      if id = id' then some slot else lookupTable table id' := by
  induction table with
  | nil =>
    by_cases h : id = id' <;> simp [insertTable, lookupTable, h]
  | cons entry rest ih =>
    obtain ⟨key, value⟩ := entry
    by_cases hk : key = id
    · subst hk
      by_cases h : key = id' <;> simp [insertTable, lookupTable, h]
    · by_cases h : key = id'
      · subst h
        have : ¬ id = key := fun he => hk he.symm
        simp [insertTable, lookupTable, hk, this]
      · simp [insertTable, lookupTable, hk, h, ih]

theorem lookupTable_eq_none_of_not_mem_keys {Id Slot : Type} [DecidableEq Id]
    (table : List (Id × Slot)) (id : Id) (h : id ∉ tableKeys table) :
    lookupTable table id = none := by
  induction table with
  | nil => simp [lookupTable]
  | cons entry rest ih =>
    obtain ⟨key, value⟩ := entry
    simp only [tableKeys, List.map_cons, List.mem_cons] at h
    push_neg at h
    have hk : ¬ key = id := fun he => h.1 he.symm
    simp only [lookupTable, if_neg hk]
    exact ih (by simpa [tableKeys] using h.2)

theorem mem_keys_insertTable {Id Slot : Type} [DecidableEq Id]
    (table : List (Id × Slot)) (id a : Id) (slot : Slot)
    (h : a ∈ tableKeys (insertTable table id slot)) :
    a = id ∨ a ∈ tableKeys table := by
  induction table with
  | nil =>
    simp [insertTable, tableKeys] at h
    exact Or.inl h
  | cons entry rest ih =>
    obtain ⟨key, value⟩ := entry
    by_cases hk : key = id
    · subst hk
      simp [insertTable, tableKeys] at h ⊢
      tauto
    · simp only [insertTable, if_neg hk, tableKeys, List.map_cons, List.mem_cons] at h ⊢
      rcases h with h | h
      · exact Or.inr (Or.inl h)
      · rcases ih (by simpa [tableKeys] using h) with h2 | h2
        · exact Or.inl h2
        · exact Or.inr (Or.inr h2)

theorem tableWF_insertTable {Id Slot : Type} [DecidableEq Id]
    (table : List (Id × Slot)) (id : Id) (slot : Slot) (h : tableWF table) :
    tableWF (insertTable table id slot) := by
  induction table with
  | nil => simp [insertTable, tableWF, tableKeys]
  | cons entry rest ih =>
    obtain ⟨key, value⟩ := entry
    simp only [tableWF, tableKeys, List.map_cons, List.nodup_cons] at h
    by_cases hk : key = id
    · subst hk
      simp only [tableWF, tableKeys] at h ⊢
      simpa [insertTable] using h
    · simp only [insertTable, if_neg hk, tableWF, tableKeys, List.map_cons,
        List.nodup_cons]
      refine ⟨fun hmem => ?_, ih h.2⟩
      rcases mem_keys_insertTable rest id key slot hmem with h2 | h2
      · exact hk h2
      · exact h.1 h2

theorem removeTable_sublist {Id Slot : Type} [DecidableEq Id]
    (table : List (Id × Slot)) (id : Id) :
    (removeTable table id).Sublist table := by
  induction table with
  | nil => simp [removeTable]
  | cons entry rest ih =>
    obtain ⟨key, value⟩ := entry
    by_cases hk : key = id
    · simp only [removeTable, if_pos hk]
      exact List.sublist_cons_self (key, value) rest
    · simpa [removeTable, hk] using ih.cons₂ (key, value)

theorem tableWF_removeTable {Id Slot : Type} [DecidableEq Id]
    (table : List (Id × Slot)) (id : Id) (h : tableWF table) :
    tableWF (removeTable table id) := by
  exact List.Nodup.sublist ((removeTable_sublist table id).map Prod.fst) h

theorem removeTable_of_lookup_none {Id Slot : Type} [DecidableEq Id]
    (table : List (Id × Slot)) (id : Id) (h : lookupTable table id = none) :
    removeTable table id = table := by
  induction table with
  | nil => simp [removeTable]
  | cons entry rest ih =>
    obtain ⟨key, value⟩ := entry
    by_cases hk : key = id
    · simp [lookupTable, hk] at h
    · simp only [lookupTable, if_neg hk] at h
      simp [removeTable, hk, ih h]

theorem lookupTable_removeTable {Id Slot : Type} [DecidableEq Id]
    (table : List (Id × Slot)) (id id' : Id) (hwf : tableWF table) :
    lookupTable (removeTable table id) id' =
      if id = id' then none else lookupTable table id' := by
  induction table with
  | nil => by_cases h : id = id' <;> simp [removeTable, lookupTable, h]
  | cons entry rest ih =>
    obtain ⟨key, value⟩ := entry
    simp only [tableWF, tableKeys, List.map_cons, List.nodup_cons] at hwf
    by_cases hk : key = id
    · subst hk
      by_cases h : key = id'
      · subst h
        simp only [removeTable, if_pos rfl, if_pos rfl]
        exact lookupTable_eq_none_of_not_mem_keys rest key hwf.1
      · simp [removeTable, lookupTable, h]
    · by_cases h : id = id'
      · subst h
        have hne : ¬ key = id := hk
        simp only [removeTable, if_neg hk, lookupTable, if_neg hne, if_pos rfl]
        simpa [if_pos rfl] using ih hwf.2
      · by_cases hk2 : key = id'
        · subst hk2
          simp [removeTable, lookupTable, hk, h]
        · simp only [removeTable, if_neg hk, lookupTable, if_neg hk2, if_neg h]
          simpa [if_neg h] using ih hwf.2

/- ## Theorems: multiplexer trace behaviour -/

theorem muxStep_reg {Id Slot : Type} [DecidableEq Id]
    (table : List (Id × Slot)) (id : Id) (sender : Slot) :
    muxStep table (MuxOp.reg id sender) = (insertTable table id sender, none) := rfl

theorem muxStep_res {Id Slot : Type} [DecidableEq Id]
    (table : List (Id × Slot)) (id : Id) :
    muxStep table (MuxOp.res id) =
      (removeTable table id,
       (lookupTable table id).map fun sender => (id, sender)) := rfl

theorem regCount_eq_count_regIds {Id Slot : Type} [DecidableEq Id]
    (id : Id) (ops : List (MuxOp Id Slot)) :
    regCount id ops = (regIds ops).count id := by
  induction ops with
  | nil => simp [regCount, regIds]
  | cons op rest ih =>
    cases op with
    | reg regId sender =>
      by_cases h : regId = id <;>
        simp [regCount, regIds, List.countP_cons, List.count_cons, h] at ih ⊢ <;>
        omega
    | res resId =>
      simpa [regCount, regIds, List.countP_cons] using ih

theorem muxRun_delivery_bound {Id Slot : Type} [DecidableEq Id]
    (ops : List (MuxOp Id Slot)) (id : Id) :
    ∀ table : List (Id × Slot), tableWF table →
      deliveryCount id (muxRun table ops).2 ≤
        regCount id ops + pendingFlag table id := by
  induction ops with
  | nil =>
    intro table _
    simp [muxRun, deliveryCount, regCount]
  | cons op rest ih =>
    intro table hwf
    cases op with
    | reg regId sender =>
      have hrun : muxRun table (MuxOp.reg regId sender :: rest) =
          ((muxRun (insertTable table regId sender) rest).1,
           (muxRun (insertTable table regId sender) rest).2) := by
        simp [muxRun, muxStep_reg]
      have hih := ih (insertTable table regId sender)
        (tableWF_insertTable table regId sender hwf)
      have hflag : pendingFlag (insertTable table regId sender) id =
          if regId = id then 1 else pendingFlag table id := by
        by_cases h : regId = id <;>
          simp [pendingFlag, lookupTable_insertTable, h]
      have hcount : regCount id (MuxOp.reg regId sender :: rest) =
          regCount id rest + (if regId = id then 1 else 0) := by
        simp [regCount, List.countP_cons]
      rw [hrun, hcount]
      by_cases h : regId = id
      · rw [hflag] at hih
        simp only [if_pos h] at hih
        have : pendingFlag table id ≥ 0 := Nat.zero_le _
        simp only [if_pos h]
        omega
      · rw [hflag] at hih
        simp only [if_neg h] at hih
        simp only [if_neg h]
        omega
    | res resId =>
      have hih := ih (removeTable table resId)
        (tableWF_removeTable table resId hwf)
      have hcount : regCount id (MuxOp.res resId :: rest) = regCount id rest := by
        simp [regCount, List.countP_cons]
      have hflag : pendingFlag (removeTable table resId) id =
          if resId = id then 0 else pendingFlag table id := by
        by_cases h : resId = id <;>
          simp [pendingFlag, lookupTable_removeTable _ _ _ hwf, h]
      have hdeliv : deliveryCount id (muxRun table (MuxOp.res resId :: rest)).2 =
          deliveryCount id ((lookupTable table resId).map
            (fun sender => (resId, sender))).toList +
          deliveryCount id (muxRun (removeTable table resId) rest).2 := by
        simp [muxRun, muxStep_res, deliveryCount, List.countP_append]
      rw [hdeliv, hcount]
      by_cases h : resId = id
      · rw [hflag] at hih
        simp only [if_pos h] at hih
        cases hlook : lookupTable table resId with
        | none =>
          have hde : deliveryCount id
              ((Option.map (fun sender => (resId, sender))
                (none : Option Slot)).toList) = 0 := by
            simp [deliveryCount]
          omega
        | some sender =>
          have hpend : pendingFlag table id = 1 := by
            subst h
            simp [pendingFlag, hlook]
          have hde : deliveryCount id
              ((Option.map (fun sender => (resId, sender))
                (some sender)).toList) = 1 := by
            simp [deliveryCount, List.countP_cons, h]
          omega
      · rw [hflag] at hih
        simp only [if_neg h] at hih
        cases hlook : lookupTable table resId with
        | none =>
          have hde : deliveryCount id
              ((Option.map (fun sender => (resId, sender))
                (none : Option Slot)).toList) = 0 := by
            simp [deliveryCount]
          omega
        | some sender =>
          have hde : deliveryCount id
              ((Option.map (fun sender => (resId, sender))
                (some sender)).toList) = 0 := by
            simp [deliveryCount, List.countP_cons, h]
          omega

/- ## Claim C6: registration under a duplicate identifier -/

/--
Claim C6 counterexample.  The claim states that the multiplexer's
registration transition fails with a `DuplicateIdentifier` error when the
identifier being registered is already present in the pending-request
table.  In the code, the registration `start_send` performs a plain
`HashMap::insert` with no duplicate check and unconditionally returns
`Ok(())`: registering identifier `1`, already pending with slot `10`,
succeeds and silently replaces the slot with `20`.
-/
theorem c6_counterexample_duplicate_registration_succeeds :
    lookupTable [((1 : Nat), (10 : Nat))] 1 = some 10 ∧
    registrationStartSend
        ({ pendingRequests := [(1, 10)], guardHeld := true } : Dispatcher Nat Nat)
        1 20 =
      some (Except.ok
        ({ pendingRequests := [(1, 20)], guardHeld := false } : Dispatcher Nat Nat)) :=
  ⟨rfl, rfl⟩

/--
Claim C6 (amended): the multiplexer's registration transition never
fails.  With the lock guard held, `start_send` returns `Ok(())`
unconditionally and inserts the (identifier, completion slot) pair into
the table; an identifier that is already pending has its completion slot
silently replaced by the new one, and every other identifier's entry is
unchanged.  Registration under a fresh identifier inserts the pair.
-/
theorem registration_insert_or_replace {Id Slot : Type} [DecidableEq Id]
    (dispatcher : Dispatcher Id Slot) (id : Id) (sender : Slot)
    (hguard : dispatcher.guardHeld = true) :
    registrationStartSend dispatcher id sender =
      some (Except.ok
        { pendingRequests := insertTable dispatcher.pendingRequests id sender
          guardHeld := false })
  ∧ lookupTable (insertTable dispatcher.pendingRequests id sender) id = some sender
  ∧ ∀ id', id' ≠ id →
      lookupTable (insertTable dispatcher.pendingRequests id sender) id' =
        lookupTable dispatcher.pendingRequests id' := by
  refine ⟨by simp [registrationStartSend, hguard], ?_, ?_⟩
  · simp [lookupTable_insertTable]
  · intro id' hne
    have : ¬ id = id' := fun he => hne he.symm
    simp [lookupTable_insertTable, this]

/-- Witness for `registration_insert_or_replace` at a concrete dispatcher
holding the guard, with identifier `5` fresh for the table `[(2, 30)]`. -/
theorem registration_insert_or_replace_witness :
    ({ pendingRequests := [(2, 30)], guardHeld := true } : Dispatcher Nat Nat).guardHeld
        = true
  ∧ (registrationStartSend
        ({ pendingRequests := [(2, 30)], guardHeld := true } : Dispatcher Nat Nat)
        5 40 =
      some (Except.ok
        { pendingRequests := insertTable [(2, 30)] 5 40, guardHeld := false })
    ∧ lookupTable (insertTable [(2, 30)] 5 40) 5 = some 40
    ∧ ∀ id', id' ≠ 5 →
        lookupTable (insertTable [((2 : Nat), (30 : Nat))] 5 40) id' =
          lookupTable [(2, 30)] id') :=
  ⟨rfl, registration_insert_or_replace
    ({ pendingRequests := [(2, 30)], guardHeld := true } : Dispatcher Nat Nat)
    5 40 rfl⟩

/- ## Claim C7: at most one delivery per identifier -/

/--
Claim C7.  For every sequence of registration and resolution operations
on the multiplexer in which registered identifiers are pairwise distinct
(the spec's collision-free identifier allocation), each identifier has at
most one response delivered to its completion slot — the table entry is
removed at the moment of resolution — and a resolution whose identifier
is not in the pending-request table completes successfully (`Ok(())`,
no panic), delivers nothing, and leaves the table unchanged.
-/
theorem multiplexer_at_most_one_delivery {Id Slot : Type} [DecidableEq Id]
    (ops : List (MuxOp Id Slot)) (hnodup : (regIds ops).Nodup) :
    (∀ id, deliveryCount id (muxRun [] ops).2 ≤ 1)
  ∧ ∀ (table : List (Id × Slot)) (id : Id), lookupTable table id = none →
      resolutionStartSend { pendingRequests := table, guardHeld := true } id =
        some (Except.ok ({ pendingRequests := table, guardHeld := false }, none)) := by
  constructor
  · intro id
    have hbound := muxRun_delivery_bound ops id [] (by simp [tableWF, tableKeys])
    have hflag : pendingFlag ([] : List (Id × Slot)) id = 0 := by
      simp [pendingFlag, lookupTable]
    have hreg : regCount id ops ≤ 1 := by
      rw [regCount_eq_count_regIds]
      exact List.nodup_iff_count_le_one.mp hnodup id
    omega
  · intro table id hlook
    simp [resolutionStartSend, hlook, removeTable_of_lookup_none table id hlook]

/-- Witness for `multiplexer_at_most_one_delivery` on `demoMuxOps`, whose
registered identifiers `[1, 2]` are pairwise distinct. -/
theorem multiplexer_at_most_one_delivery_witness :
    (regIds demoMuxOps).Nodup
  ∧ ((∀ id, deliveryCount id (muxRun [] demoMuxOps).2 ≤ 1)
    ∧ ∀ (table : List (Nat × Nat)) (id : Nat), lookupTable table id = none →
        resolutionStartSend { pendingRequests := table, guardHeld := true } id =
          some (Except.ok ({ pendingRequests := table, guardHeld := false }, none))) :=
  ⟨by decide, multiplexer_at_most_one_delivery demoMuxOps (by decide)⟩

/- ## Claim C8: one in-flight acquisition attempt -/

/--
Claim C8.  The cooperative mutex keeps at most one acquisition attempt in
flight per instance (structurally, `lockFuture` is a single optional
attempt): a poll polls the in-flight attempt when one is present and
otherwise starts a new one; on completion the in-flight marker is cleared
to `none` before the guard is returned; on a pending poll the attempt
stays in flight and an immediately following poll reuses exactly that
attempt; and after a completing poll the machine is back in the idle
state, so the next poll starts a fresh attempt.
-/
theorem mutex_poll_lock_spec (state : MutexStateMachine) (ready : Bool) :
    state.polledAttempt =
      (match state.lockFuture with
       | some attempt => attempt
       | none => state.nextAttempt)
  ∧ (state.poll_lock ready).1 =
      (if ready then some state.polledAttempt else none)
  ∧ (state.poll_lock ready).2.lockFuture =
      (if ready then none else some state.polledAttempt)
  ∧ (∀ laterReady : Bool,
      ((state.poll_lock false).2.poll_lock laterReady).1 =
        (if laterReady then some state.polledAttempt else none))
  ∧ (state.poll_lock true).2.lockFuture = none
  ∧ (state.poll_lock true).2.polledAttempt = (state.poll_lock true).2.nextAttempt := by
  refine ⟨?_, ?_, ?_, ?_, ?_, ?_⟩
  · cases h : state.lockFuture <;> simp [MutexStateMachine.polledAttempt, h]
  · cases ready <;> simp [MutexStateMachine.poll_lock]
  · cases ready <;> simp [MutexStateMachine.poll_lock]
  · intro laterReady
    cases laterReady <;>
      simp [MutexStateMachine.poll_lock, MutexStateMachine.polledAttempt]
  · simp [MutexStateMachine.poll_lock]
  · simp [MutexStateMachine.poll_lock, MutexStateMachine.polledAttempt]

/- ## Claim C9: plain outcomes and the unified failure case -/

/--
Claim C9.  For a method whose native outcome is `Plain` (a
`ResultData.notResult`), the generated convenience call unwraps the
unified outcome with `.expect("Result data never fails")`, which fails
fatally — modelled as `none` — when it receives the unified failure case;
the router's dispatch rule for such a method always wraps the native
value in the success case (`Ok(...)`), so composing the dispatch
conversion with the convenience unwrap always yields the native value:
the fatal branch is unreachable for requests dispatched through the
generated router.
-/
theorem plain_outcome_unreachable_failure {Error Value : Type} (t : Ty) :
    (∀ e : Error,
      conversionFromResultSem (ResultData.notResult t) (Except.error e) =
        (none : Option (NativeOutcome (ResultData.notResult t) Error Value)))
  ∧ (∀ v : Value,
      conversionToResultSem (ResultData.notResult t) v = (Except.ok v : Except Error Value))
  ∧ (∀ v : Value,
      @conversionFromResultSem (ResultData.notResult t) Error Value
        (@conversionToResultSem (ResultData.notResult t) Error Value v) = some v) := by
  refine ⟨?_, ?_, ?_⟩
  · intro e
    rfl
  · intro v
    rfl
  · intro v
    rfl

/- ## Claim C3: interface-wide access-strategy supremum -/

theorem rank_le_two (receiverType : ReceiverType) : receiverType.rank ≤ 2 := by
  cases receiverType <;> simp [ReceiverType.rank]

theorem rank_le_maxStep_left (a b : ReceiverType) :
    a.rank ≤ (ReceiverType.maxStep a b).rank := by
  by_cases h : a.rank ≤ b.rank <;> simp [ReceiverType.maxStep, h]

theorem rank_le_maxStep_right (a b : ReceiverType) :
    b.rank ≤ (ReceiverType.maxStep a b).rank := by
  by_cases h : a.rank ≤ b.rank <;> simp [ReceiverType.maxStep, h]
  omega

theorem rank_le_foldl_maxStep (l : List ReceiverType) :
    ∀ a : ReceiverType, a.rank ≤ (l.foldl ReceiverType.maxStep a).rank := by
  induction l with
  | nil => intro a; simp
  | cons x xs ih =>
    intro a
    calc a.rank ≤ (ReceiverType.maxStep a x).rank := rank_le_maxStep_left a x
    _ ≤ _ := ih (ReceiverType.maxStep a x)

theorem mem_rank_le_foldl_maxStep (l : List ReceiverType) :
    ∀ (a x : ReceiverType), x ∈ l → x.rank ≤ (l.foldl ReceiverType.maxStep a).rank := by
  induction l with
  | nil => intro a x hx; cases hx
  | cons y ys ih =>
    intro a x hx
    rcases List.mem_cons.mp hx with h | h
    · subst h
      calc x.rank ≤ (ReceiverType.maxStep a x).rank := rank_le_maxStep_right a x
      _ ≤ _ := rank_le_foldl_maxStep ys (ReceiverType.maxStep a x)
    · exact ih (ReceiverType.maxStep a y) x h

theorem foldl_maxStep_attained (l : List ReceiverType) :
    ∀ a : ReceiverType, l.foldl ReceiverType.maxStep a = a ∨
      l.foldl ReceiverType.maxStep a ∈ l := by
  induction l with
  | nil => intro a; exact Or.inl rfl
  | cons x xs ih =>
    intro a
    have hstep : ReceiverType.maxStep a x = a ∨ ReceiverType.maxStep a x = x := by
      by_cases h : a.rank ≤ x.rank <;> simp [ReceiverType.maxStep, h]
    rcases ih (ReceiverType.maxStep a x) with h | h
    · rcases hstep with h2 | h2
      · exact Or.inl (by rw [List.foldl_cons, h, h2])
      · exact Or.inr (by rw [List.foldl_cons, h, h2]; exact List.mem_cons_self x xs)
    · exact Or.inr (List.mem_cons_of_mem x h)

theorem rank_two_eq_mutableReference (receiverType : ReceiverType)
    (h : receiverType.rank = 2) : receiverType = ReceiverType.mutableReference := by
  cases receiverType <;> simp_all [ReceiverType.rank]

/--
Claim C3.  For every `impl` block the generator accepts, the
interface-wide receiver type it computes is the maximum of the per-method
receiver types under the total order
`NoReceiver < Reference < MutableReference` (the spec's
`NoAccess < SharedRead < ExclusiveWrite`): it is an upper bound of every
method's receiver type, it is attained by some method, it is the value of
`Iterator::max` over the method receiver types, and as soon as one method
requires a mutable (exclusive-write) receiver the interface-wide receiver
type is `MutableReference`, however many other methods there are.
-/
theorem generator_receiver_supremum (selfType : Ty) (items : List ImplItem)
    (g : Generator) (hg : Generator.new selfType items = Except.ok g) :
    (∀ m ∈ g.methods, m.receiverType.rank ≤ g.receiverType.rank)
  ∧ (∃ m ∈ g.methods, m.receiverType = g.receiverType)
  ∧ ((∃ m ∈ g.methods, m.receiverType = ReceiverType.mutableReference) →
      g.receiverType = ReceiverType.mutableReference)
  ∧ maxReceiverType (g.methods.map MethodData.receiverType) = some g.receiverType := by
  revert hg
  unfold Generator.new
  cases hmapM : (implMethods items).mapM MethodData.new with
  | none => intro hg; exact absurd hg (by simp)
  | some methods =>
    cases methods with
    | nil => intro hg; exact absurd hg (by simp)
    | cons firstMethod restMethods =>
      cases hfold : sharedResultFoldE firstMethod.result (restMethods.map MethodData.result) with
      | error offending =>
        intro hg
        simp only [] at hg
        rw [hfold] at hg
        simp at hg
      | ok result =>
        intro hg
        simp only [] at hg
        rw [hfold] at hg
        simp only [Except.ok.injEq] at hg
        subst hg
        dsimp only []
        refine ⟨?_, ?_, ?_, ?_⟩
        · intro m hm
          rcases List.mem_cons.mp hm with h | h
          · subst h
            exact rank_le_foldl_maxStep _ _
          · exact mem_rank_le_foldl_maxStep _ _ _
              (List.mem_map_of_mem MethodData.receiverType h)
        · rcases foldl_maxStep_attained (restMethods.map MethodData.receiverType)
            firstMethod.receiverType with h | h
          · exact ⟨firstMethod, List.mem_cons_self _ _, h.symm⟩
          · rcases List.mem_map.mp h with ⟨m, hm, hmr⟩
            exact ⟨m, List.mem_cons_of_mem _ hm, hmr⟩
        · rintro ⟨m, hm, hmr⟩
          apply rank_two_eq_mutableReference
          have hle : m.receiverType.rank ≤
              ((restMethods.map MethodData.receiverType).foldl
                ReceiverType.maxStep firstMethod.receiverType).rank := by
            rcases List.mem_cons.mp hm with h | h
            · subst h; exact rank_le_foldl_maxStep _ _
            · exact mem_rank_le_foldl_maxStep _ _ _
                (List.mem_map_of_mem MethodData.receiverType h)
          have hub := rank_le_two
            ((restMethods.map MethodData.receiverType).foldl
              ReceiverType.maxStep firstMethod.receiverType)
          rw [hmr] at hle
          have h2 : ReceiverType.mutableReference.rank = 2 := rfl
          rw [h2] at hle
          omega
        · simp [maxReceiverType]

/-- Witness for `generator_receiver_supremum` on `mixedAccessItems` (one
exclusive-write method, one shared-read method). -/
theorem generator_receiver_supremum_witness :
    Generator.new unitTy mixedAccessItems = Except.ok mixedGenerator
  ∧ ((∀ m ∈ mixedGenerator.methods,
        m.receiverType.rank ≤ mixedGenerator.receiverType.rank)
    ∧ (∃ m ∈ mixedGenerator.methods, m.receiverType = mixedGenerator.receiverType)
    ∧ ((∃ m ∈ mixedGenerator.methods,
          m.receiverType = ReceiverType.mutableReference) →
        mixedGenerator.receiverType = ReceiverType.mutableReference)
    ∧ maxReceiverType (mixedGenerator.methods.map MethodData.receiverType) =
        some mixedGenerator.receiverType) :=
  ⟨rfl, generator_receiver_supremum unitTy mixedAccessItems mixedGenerator rfl⟩

/- ## Claim C4: shared-read methods under an exclusive-write interface -/

/--
Claim C4 counterexample.  The claim states that under an
`ExclusiveWrite` interface-wide strategy, a `SharedRead` method's
generated dispatch serializes behind the lock identically to the
exclusive-write methods' calls.  In the code,
`ReceiverType::service_method_call_prefix` emits `inner.read().await.`
for a `&self` method and `inner.write().await.` for a `&mut self` method
under a `MutableReference` service receiver: the two generated call
prefixes are different, and the read half of the `RwLock` admits
concurrent readers rather than serializing them like writers.
-/
theorem c4_counterexample_reader_uses_read_half :
    serviceMethodCallTarget ReceiverType.mutableReference ReceiverType.reference =
      some CallTarget.innerRead
  ∧ serviceMethodCallTarget ReceiverType.mutableReference ReceiverType.mutableReference =
      some CallTarget.innerWrite
  ∧ serviceMethodCallTarget ReceiverType.mutableReference ReceiverType.reference ≠
      serviceMethodCallTarget ReceiverType.mutableReference ReceiverType.mutableReference := by
  refine ⟨rfl, rfl, ?_⟩
  decide

/--
Claim C4 (amended).  For every generated interface whose interface-wide
receiver type is `MutableReference` (the spec's `ExclusiveWrite`), the
service state is stored in `Arc<RwLock<_>>`; each `SharedRead` (`&self`)
method's dispatch goes through the read half of that reader-writer lock
(`inner.read().await`), while each `ExclusiveWrite` (`&mut self`)
method's dispatch goes through the write half (`inner.write().await`):
readers are serialized against writers by the lock, but acquire shared
read access rather than exclusive access, so their calls are not
dispatched identically to the writers' calls.
-/
theorem shared_read_under_exclusive_write (selfType : Ty) (items : List ImplItem)
    (g : Generator) (hg : Generator.new selfType items = Except.ok g)
    (hstrategy : g.receiverType = ReceiverType.mutableReference) :
    serviceData g.receiverType = ServiceStorage.arcRwLockState
  ∧ (∀ m ∈ g.methods, m.receiverType = ReceiverType.reference →
      serviceMethodCallTarget g.receiverType m.receiverType = some CallTarget.innerRead)
  ∧ (∀ m ∈ g.methods, m.receiverType = ReceiverType.mutableReference →
      serviceMethodCallTarget g.receiverType m.receiverType = some CallTarget.innerWrite) := by
  refine ⟨?_, ?_, ?_⟩
  · rw [hstrategy]
    rfl
  · intro m _ hm
    rw [hstrategy, hm]
    rfl
  · intro m _ hm
    rw [hstrategy, hm]
    rfl

/-- Witness for `shared_read_under_exclusive_write` on `mixedAccessItems`
(one `&mut self` method, one `&self` method, interface-wide receiver
`MutableReference`). -/
theorem shared_read_under_exclusive_write_witness :
    Generator.new unitTy mixedAccessItems = Except.ok mixedGenerator
  ∧ mixedGenerator.receiverType = ReceiverType.mutableReference
  ∧ (serviceData mixedGenerator.receiverType = ServiceStorage.arcRwLockState
    ∧ (∀ m ∈ mixedGenerator.methods, m.receiverType = ReceiverType.reference →
        serviceMethodCallTarget mixedGenerator.receiverType m.receiverType =
          some CallTarget.innerRead)
    ∧ (∀ m ∈ mixedGenerator.methods, m.receiverType = ReceiverType.mutableReference →
        serviceMethodCallTarget mixedGenerator.receiverType m.receiverType =
          some CallTarget.innerWrite)) :=
  ⟨rfl, rfl,
    shared_read_under_exclusive_write unitTy mixedAccessItems mixedGenerator rfl rfl⟩

/- ## Claim C5: duplicate method names after normalization -/

/--
Claim C5 counterexample.  The claim states that generation fails with a
`DuplicateMethodName` error whenever two methods have the same name after
CamelCase normalization, producing no artifact.  In the code there is no
duplicate-name check of any kind: for the `impl` block with methods
`foo_bar` and `foo_bar_` — two distinct Rust identifiers that both
normalize to the variant name `FooBar` — `Generator::new` succeeds and
produces an artifact whose `Request` enum has the variant name `FooBar`
twice.
-/
theorem c5_counterexample_duplicate_names_accepted :
    camelCase "foo_bar" = "FooBar"
  ∧ camelCase "foo_bar_" = "FooBar"
  ∧ (Generator.new unitTy duplicateNameItems).map Generator.requestVariantNames =
      Except.ok ["FooBar", "FooBar"] :=
  ⟨rfl, rfl, rfl⟩

/--
Claim C5 (amended).  The generator performs no duplicate-method-name
check: whenever the `impl` block's methods all construct (no owned
receiver) into a non-empty list and their return types unify to a shared
result, `Generator::new` succeeds — regardless of any collision between
CamelCase-normalized method names — and the produced artifact carries one
request variant per method, in declaration order, named by the CamelCase
normalization of the method name (with collisions reproduced verbatim).
Generation fails only on an empty method list, an owned receiver, or an
incompatible method return type.
-/
theorem generator_has_no_duplicate_name_check (selfType : Ty) (items : List ImplItem)
    (firstMethod : MethodData) (restMethods : List MethodData) (result : ResultData)
    (hmethods : (implMethods items).mapM MethodData.new = some (firstMethod :: restMethods))
    (hfold : sharedResultFoldE firstMethod.result (restMethods.map MethodData.result) =
      Except.ok result) :
    Generator.new selfType items =
      Except.ok
        { selfType := selfType
          methods := firstMethod :: restMethods
          response := result
          receiverType := (restMethods.map MethodData.receiverType).foldl
            ReceiverType.maxStep firstMethod.receiverType }
  ∧ (Generator.new selfType items).map Generator.requestVariantNames =
      Except.ok ((firstMethod :: restMethods).map MethodData.requestName) := by
  have hgen : Generator.new selfType items =
      Except.ok
        { selfType := selfType
          methods := firstMethod :: restMethods
          response := result
          receiverType := (restMethods.map MethodData.receiverType).foldl
            ReceiverType.maxStep firstMethod.receiverType } := by
    unfold Generator.new
    rw [hmethods]
    simp only []
    rw [hfold]
  constructor
  · exact hgen
  · rw [hgen]
    rfl

/-- Witness for `generator_has_no_duplicate_name_check` on the colliding
`impl` block `duplicateNameItems`. -/
theorem generator_has_no_duplicate_name_check_witness :
    (implMethods duplicateNameItems).mapM MethodData.new =
      some [fooBarData, fooBarTrailingData]
  ∧ sharedResultFoldE fooBarData.result ([fooBarTrailingData].map MethodData.result) =
      Except.ok (ResultData.notResult unitTy)
  ∧ (Generator.new unitTy duplicateNameItems =
      Except.ok
        { selfType := unitTy
          methods := [fooBarData, fooBarTrailingData]
          response := ResultData.notResult unitTy
          receiverType := ([fooBarTrailingData].map MethodData.receiverType).foldl
            ReceiverType.maxStep fooBarData.receiverType }
    ∧ (Generator.new unitTy duplicateNameItems).map Generator.requestVariantNames =
        Except.ok ([fooBarData, fooBarTrailingData].map MethodData.requestName)) :=
  ⟨by decide, rfl,
    generator_has_no_duplicate_name_check unitTy duplicateNameItems
      fooBarData [fooBarTrailingData] (ResultData.notResult unitTy)
      (by decide) rfl⟩

/- ## Claims C1 and C2: outcome unification -/

theorem sharedErrHead_notResult (a : Ty) (l : List ResultData) :
    sharedErrHead (ResultData.notResult a :: l) = sharedErrHead l := by
  simp [sharedErrHead, List.filterMap_cons, ResultData.err_type]

theorem sharedErrHead_result (a e : Ty) (l : List ResultData) :
    sharedErrHead (ResultData.result a e :: l) = some e := by
  simp [sharedErrHead, List.filterMap_cons, ResultData.err_type]

theorem pairwiseEq_of_subset {α : Type} {small big : List α}
    (hsub : ∀ x ∈ small, x ∈ big)
    (h : ∀ e1 ∈ big, ∀ e2 ∈ big, e1 = e2) :
    ∀ e1 ∈ small, ∀ e2 ∈ small, e1 = e2 :=
  fun e1 h1 e2 h2 => h e1 (hsub e1 h1) e2 (hsub e2 h2)

theorem sharedResultFold_spec (rest : List ResultData) :
    ∀ current : ResultData,
      (∀ r ∈ rest, r.ok_type = current.ok_type) →
      (∀ e1 ∈ (current :: rest).filterMap ResultData.err_type,
       ∀ e2 ∈ (current :: rest).filterMap ResultData.err_type, e1 = e2) →
      sharedResultFold current rest =
        some
          (match sharedErrHead (current :: rest) with
           | none => ResultData.notResult current.ok_type
           | some e => ResultData.result current.ok_type e) := by
  induction rest with
  | nil =>
    intro current _ _
    cases current with
    | notResult a => rfl
    | result a e => rfl
  | cons next rest ih =>
    intro current hrest herr
    have hnext_ok : next.ok_type = current.ok_type :=
      hrest next (List.mem_cons_self _ _)
    have hrest2 : ∀ r ∈ rest, r.ok_type = current.ok_type :=
      fun r hr => hrest r (List.mem_cons_of_mem _ hr)
    cases current with
    | notResult a =>
      cases next with
      | notResult b =>
        have hb : b = a := by simpa [ResultData.ok_type] using hnext_ok
        rw [hb]
        have herr2 :
            ∀ e1 ∈ (ResultData.notResult a :: rest).filterMap ResultData.err_type,
            ∀ e2 ∈ (ResultData.notResult a :: rest).filterMap ResultData.err_type,
              e1 = e2 := by
          refine pairwiseEq_of_subset ?_ herr
          intro x hx
          rw [hb] at herr ⊢
          simp only [List.filterMap_cons, ResultData.err_type] at hx ⊢
          exact hx
        have hih := ih (ResultData.notResult a)
          (by
            intro r hr
            rw [ResultData.ok_type]
            exact hrest2 r hr)
          herr2
        simp only [ResultData.ok_type] at hih
        have hstep : sharedResultFold (ResultData.notResult a)
            (ResultData.notResult a :: rest) =
            sharedResultFold (ResultData.notResult a) rest := by
          simp [sharedResultFold]
        rw [hstep, sharedErrHead_notResult, hih, sharedErrHead_notResult]
        rfl
      | result b e =>
        have hb : b = a := by simpa [ResultData.ok_type] using hnext_ok
        rw [hb]
        have herr2 :
            ∀ e1 ∈ (ResultData.result a e :: rest).filterMap ResultData.err_type,
            ∀ e2 ∈ (ResultData.result a e :: rest).filterMap ResultData.err_type,
              e1 = e2 := by
          refine pairwiseEq_of_subset ?_ herr
          intro x hx
          rw [hb] at herr ⊢
          simp only [List.filterMap_cons, ResultData.err_type] at hx ⊢
          exact hx
        have hih := ih (ResultData.result a e)
          (by
            intro r hr
            rw [ResultData.ok_type]
            exact hrest2 r hr)
          herr2
        simp only [ResultData.ok_type] at hih
        have hstep : sharedResultFold (ResultData.notResult a)
            (ResultData.result a e :: rest) =
            sharedResultFold (ResultData.result a e) rest := by
          simp [sharedResultFold, ResultData.ok_type, ResultData.err_type]
        rw [hstep, sharedErrHead_notResult, hih]
        rfl
    | result a e1 =>
      cases next with
      | notResult b =>
        have hb : b = a := by simpa [ResultData.ok_type] using hnext_ok
        rw [hb]
        have herr2 :
            ∀ e3 ∈ (ResultData.result a e1 :: rest).filterMap ResultData.err_type,
            ∀ e4 ∈ (ResultData.result a e1 :: rest).filterMap ResultData.err_type,
              e3 = e4 := by
          refine pairwiseEq_of_subset ?_ herr
          intro x hx
          simp only [List.filterMap_cons, ResultData.err_type] at hx ⊢
          exact hx
        have hih := ih (ResultData.result a e1)
          (by
            intro r hr
            rw [ResultData.ok_type]
            exact hrest2 r hr)
          herr2
        simp only [ResultData.ok_type] at hih
        have hstep : sharedResultFold (ResultData.result a e1)
            (ResultData.notResult a :: rest) =
            sharedResultFold (ResultData.result a e1) rest := by
          simp [sharedResultFold, ResultData.ok_type, ResultData.err_type]
        rw [hstep, sharedErrHead_result, hih, sharedErrHead_result]
        rfl
      | result b e2 =>
        have hb : b = a := by simpa [ResultData.ok_type] using hnext_ok
        rw [hb]
        have he : e2 = e1 := by
          refine (herr e2 ?_ e1 ?_)
          · simp [List.filterMap_cons, ResultData.err_type]
          · simp [List.filterMap_cons, ResultData.err_type]
        rw [he]
        have herr2 :
            ∀ e3 ∈ (ResultData.result a e1 :: rest).filterMap ResultData.err_type,
            ∀ e4 ∈ (ResultData.result a e1 :: rest).filterMap ResultData.err_type,
              e3 = e4 := by
          rw [he] at herr
          refine pairwiseEq_of_subset ?_ herr
          intro x hx
          simp only [List.filterMap_cons, ResultData.err_type] at hx ⊢
          rcases List.mem_cons.mp hx with hx | hx
          · exact List.mem_cons.mpr (Or.inl hx)
          · exact List.mem_cons.mpr (Or.inr (List.mem_cons.mpr (Or.inr hx)))
        have hih := ih (ResultData.result a e1)
          (by
            intro r hr
            rw [ResultData.ok_type]
            exact hrest2 r hr)
          herr2
        simp only [ResultData.ok_type] at hih
        have hstep : sharedResultFold (ResultData.result a e1)
            (ResultData.result a e1 :: rest) =
            sharedResultFold (ResultData.result a e1) rest := by
          simp [sharedResultFold]
        rw [hstep, sharedErrHead_result, hih, sharedErrHead_result]
        rfl

theorem common_shared_error_eq_none_iff (errorTypes : List Ty) :
    common_shared_error errorTypes = none ↔
      ∃ e1 ∈ errorTypes, ∃ e2 ∈ errorTypes, e1 ≠ e2 := by
  cases errorTypes with
  | nil => simp [common_shared_error]
  | cons e rest =>
    constructor
    · intro hc
      by_cases h : rest.all (· = e)
      · rw [common_shared_error, if_pos h] at hc
        exact absurd hc (by simp)
      · have hex : ∃ x ∈ rest, ¬ (x = e) := by
          simpa [List.all_eq_true] using h
        rcases hex with ⟨x, hx, hne⟩
        exact ⟨e, List.mem_cons_self _ _, x, List.mem_cons_of_mem _ hx,
          fun hh => hne hh.symm⟩
    · rintro ⟨e1, h1, e2, h2, hne⟩
      by_cases h : rest.all (· = e)
      · exfalso
        have hall : ∀ x ∈ rest, x = e := by
          simpa [List.all_eq_true] using h
        have he1 : e1 = e := by
          rcases List.mem_cons.mp h1 with h1 | h1
          · exact h1
          · exact hall e1 h1
        have he2 : e2 = e := by
          rcases List.mem_cons.mp h2 with h2 | h2
          · exact h2
          · exact hall e2 h2
        exact hne (he1.trans he2.symm)
      · rw [common_shared_error, if_neg h]

theorem ResponseData.new_cons (first : MethodData) (rest : List MethodData) :
    ResponseData.new (first :: rest) =
      (match common_shared_error (methodErrTypes (first :: rest)) with
       | some error =>
         (match sharedResultFold first.result (rest.map MethodData.result) with
          | some result => some (ResponseData.shared result)
          | none =>
            some (ResponseData.disjointWithSharedError
              (((first :: rest).map MethodData.requestName).zip
                (((first :: rest).map MethodData.result).map ResultData.ok_type)) error))
       | none =>
         some (ResponseData.fullyDisjoint
           (((first :: rest).map MethodData.requestName).zip
             ((first :: rest).map MethodData.result)))) := by
  cases h : common_shared_error (methodErrTypes (first :: rest)) with
  | none =>
    have h2 : common_shared_error
        ((List.map MethodData.result (first :: rest)).filterMap ResultData.err_type) =
        none := h
    simp only [ResponseData.new]
    rw [h2]
  | some error =>
    have h2 : common_shared_error
        ((List.map MethodData.result (first :: rest)).filterMap ResultData.err_type) =
        some error := h
    simp only [ResponseData.new]
    rw [h2]
    have hcsr : common_shared_result (List.map MethodData.result (first :: rest)) =
        some (sharedResultFold first.result (List.map MethodData.result rest)) := rfl
    cases h3 : sharedResultFold first.result (rest.map MethodData.result) with
    | some result =>
      have h4 : common_shared_result (List.map MethodData.result (first :: rest)) =
          some (some result) := by rw [hcsr, h3]
      rw [h4]
    | none =>
      have h4 : common_shared_result (List.map MethodData.result (first :: rest)) =
          some none := by rw [hcsr, h3]
      rw [h4]

theorem common_shared_error_of_pairwiseEq (errorTypes : List Ty)
    (h : ∀ e1 ∈ errorTypes, ∀ e2 ∈ errorTypes, e1 = e2) :
    common_shared_error errorTypes = some (errorTypes.head?.getD unitTy) := by
  cases errorTypes with
  | nil => rfl
  | cons e rest =>
    have hall : rest.all (· = e) = true := by
      simp only [List.all_eq_true, decide_eq_true_eq]
      intro x hx
      exact h x (List.mem_cons_of_mem _ hx) e (List.mem_cons_self _ _)
    simp [common_shared_error, hall]

/--
Claim C1.  Outcome unification is total: for every non-empty list of
method outcome models, `ResponseData::new` (the `proc-macros` version)
produces a unified response contract — it never fails.  Moreover, when no
single common failure type exists among the fallible methods (two
distinct failure types are present), it chooses the fully-disjoint
contract, wrapping each method's entire outcome (`ResultData`, success
and failure together) in that method's own named variant, with the
interface-level failure type equal to the unit type.
-/
theorem unification_total_and_fully_disjoint (methods : List MethodData)
    (hnonempty : methods ≠ []) :
    (∃ response, ResponseData.new methods = some response)
  ∧ ((∃ e1 ∈ methodErrTypes methods, ∃ e2 ∈ methodErrTypes methods, e1 ≠ e2) →
      ResponseData.new methods =
        some (ResponseData.fullyDisjoint
          ((methods.map MethodData.requestName).zip (methods.map MethodData.result)))
      ∧ ResponseData.errType
          (ResponseData.fullyDisjoint
            ((methods.map MethodData.requestName).zip
              (methods.map MethodData.result))) = unitTy) := by
  cases methods with
  | nil => exact absurd rfl hnonempty
  | cons first rest =>
    constructor
    · rw [ResponseData.new_cons]
      cases hcse : common_shared_error (methodErrTypes (first :: rest)) with
      | some error =>
        cases hfold : sharedResultFold first.result (rest.map MethodData.result) with
        | some result => exact ⟨_, rfl⟩
        | none => exact ⟨_, rfl⟩
      | none => exact ⟨_, rfl⟩
    · intro hdivergent
      have hnone : common_shared_error (methodErrTypes (first :: rest)) = none :=
        (common_shared_error_eq_none_iff _).mpr hdivergent
      rw [ResponseData.new_cons, hnone]
      exact ⟨rfl, rfl⟩

/-- Witness for `unification_total_and_fully_disjoint` on
`demoDisjointMethods`, whose two methods contribute the distinct failure
types `opaqueTy 1` and `opaqueTy 2`. -/
theorem unification_total_and_fully_disjoint_witness :
    demoDisjointMethods ≠ []
  ∧ ((∃ response, ResponseData.new demoDisjointMethods = some response)
    ∧ ((∃ e1 ∈ methodErrTypes demoDisjointMethods,
          ∃ e2 ∈ methodErrTypes demoDisjointMethods, e1 ≠ e2) →
        ResponseData.new demoDisjointMethods =
          some (ResponseData.fullyDisjoint
            ((demoDisjointMethods.map MethodData.requestName).zip
              (demoDisjointMethods.map MethodData.result)))
        ∧ ResponseData.errType
            (ResponseData.fullyDisjoint
              ((demoDisjointMethods.map MethodData.requestName).zip
                (demoDisjointMethods.map MethodData.result))) = unitTy)) :=
  ⟨by decide, unification_total_and_fully_disjoint demoDisjointMethods (by decide)⟩

/--
Claim C2.  For every non-empty list of method outcome models in which all
methods have the same success type and at most one distinct failure type
is present among the fallible methods (a plain-outcome method is
compatible with any single failure type), `ResponseData::new` yields the
shared contract: `ResponseData.shared` with the common success type, the
single failure type present — and the unit type as the interface failure
type when no method is fallible.
-/
theorem unification_shared_contract (methods : List MethodData) (t : Ty)
    (hnonempty : methods ≠ [])
    (hok : ∀ m ∈ methods, m.result.ok_type = t)
    (herr : ∀ e1 ∈ methodErrTypes methods, ∀ e2 ∈ methodErrTypes methods, e1 = e2) :
    ∃ result, ResponseData.new methods = some (ResponseData.shared result)
      ∧ result.ok_type = t
      ∧ result.err_type = (methodErrTypes methods).head?
      ∧ ResponseData.errType (ResponseData.shared result) =
          ((methodErrTypes methods).head?).getD unitTy := by
  cases methods with
  | nil => exact absurd rfl hnonempty
  | cons first rest =>
    have hfirstok : first.result.ok_type = t := hok first (List.mem_cons_self _ _)
    have hrestok : ∀ r ∈ rest.map MethodData.result, r.ok_type = first.result.ok_type := by
      intro r hr
      rcases List.mem_map.mp hr with ⟨m, hm, hmr⟩
      rw [← hmr, hfirstok]
      exact hok m (List.mem_cons_of_mem _ hm)
    have herr2 :
        ∀ e1 ∈ (first.result :: rest.map MethodData.result).filterMap ResultData.err_type,
        ∀ e2 ∈ (first.result :: rest.map MethodData.result).filterMap ResultData.err_type,
          e1 = e2 := herr
    have hcse : common_shared_error (methodErrTypes (first :: rest)) =
        some ((methodErrTypes (first :: rest)).head?.getD unitTy) :=
      common_shared_error_of_pairwiseEq _ herr
    have hfoldspec := sharedResultFold_spec (rest.map MethodData.result)
      first.result hrestok herr2
    have hnew : ResponseData.new (first :: rest) =
        some (ResponseData.shared
          (match (methodErrTypes (first :: rest)).head? with
           | none => ResultData.notResult first.result.ok_type
           | some e => ResultData.result first.result.ok_type e)) := by
      rw [ResponseData.new_cons, hcse, hfoldspec]
      rfl
    rw [hfirstok] at hnew
    cases hhead : (methodErrTypes (first :: rest)).head? with
    | none =>
      rw [hhead] at hnew
      exact ⟨ResultData.notResult t, hnew, rfl, rfl, rfl⟩
    | some e =>
      rw [hhead] at hnew
      exact ⟨ResultData.result t e, hnew, rfl, rfl, rfl⟩

/-- Witness for `unification_shared_contract` on `demoSharedMethods`
(one plain method and one fallible method sharing the success type
`opaqueTy 3`, with the single failure type `opaqueTy 1`). -/
theorem unification_shared_contract_witness :
    demoSharedMethods ≠ []
  ∧ (∀ m ∈ demoSharedMethods, m.result.ok_type = opaqueTy 3)
  ∧ (∀ e1 ∈ methodErrTypes demoSharedMethods,
     ∀ e2 ∈ methodErrTypes demoSharedMethods, e1 = e2)
  ∧ (∃ result,
      ResponseData.new demoSharedMethods = some (ResponseData.shared result)
      ∧ result.ok_type = opaqueTy 3
      ∧ result.err_type = (methodErrTypes demoSharedMethods).head?
      ∧ ResponseData.errType (ResponseData.shared result) =
          ((methodErrTypes demoSharedMethods).head?).getD unitTy) :=
  ⟨by decide, by decide, by decide,
    unification_shared_contract demoSharedMethods (opaqueTy 3)
      (by decide) (by decide) (by decide)⟩

/- ## Claim C10: classification of return types -/

theorem extract_from_arguments_result_iff (args : PathArgs) :
    (∃ okType errType,
      extract_from_arguments args = some (ResultData.result okType errType)) ↔
      twoTypeArgs args := by
  cases args with
  | noArgs => simp [extract_from_arguments, twoTypeArgs]
  | parenthesized => simp [extract_from_arguments, twoTypeArgs]
  | angleBracketed arglist =>
    cases arglist with
    | nil => simp [extract_from_arguments, twoTypeArgs]
    | cons g1 t1 =>
      cases g1 with
      | nonTypeArg tag => simp [extract_from_arguments, twoTypeArgs]
      | typeArg okType =>
        cases t1 with
        | nil => simp [extract_from_arguments, twoTypeArgs]
        | cons g2 t2 =>
          cases g2 with
          | nonTypeArg tag => simp [extract_from_arguments, twoTypeArgs]
          | typeArg errType =>
            cases t2 with
            | nil => simp [extract_from_arguments, twoTypeArgs]
            | cons g3 t3 => simp [extract_from_arguments, twoTypeArgs]

theorem getD_notResult_eq_result_iff (o : Option ResultData) (x okType errType : Ty) :
    o.getD (ResultData.notResult x) = ResultData.result okType errType ↔
      o = some (ResultData.result okType errType) := by
  cases o <;> simp

/--
Claim C10 counterexample.  The claim states that a return type is
classified `Fallible` only when written as the path `Result<T, E>` with
no leading colons or as `std::result::Result<T, E>`, every other —
including differently-qualified — result type being `Plain`.  The
return type `::std::result::Result<opaqueTy 1, opaqueTy 2>` is written
with leading colons, so it is neither of the claim's two shapes, yet
`ResultData::new` classifies it as a `Result` (the code never checks the
leading colons in the `std::result::Result` branch).
-/
theorem c10_counterexample_colon_qualified_result :
    ¬ specClaimFallibleShape (ReturnType.type colonStdResultTy)
  ∧ ResultData.new (ReturnType.type colonStdResultTy) =
      ResultData.result (opaqueTy 1) (opaqueTy 2) := by
  constructor
  · rintro (⟨args, _, h⟩ | ⟨args, _, h⟩) <;>
      simp [colonStdResultTy] at h
  · rfl

/--
Claim C10 (amended).  A method's declared return type is classified
`Fallible` (a `ResultData.result`) if and only if it is a path type
without a qualified self and either (a) its first segment is named
`Result`, the path has no leading colons, and that segment carries
exactly two angle-bracketed type arguments — whatever segments follow —
or (b) its first three segments are named `std`, `result` and `Result`,
the third carrying exactly two angle-bracketed type arguments — with or
without leading colons, and whatever segments follow.  Every other
return type is classified `Plain`, and a method with no declared return
type is classified `Plain` with the unit type.
-/
theorem result_classification (returnTy : ReturnType) :
    ((∃ okType errType,
        ResultData.new returnTy = ResultData.result okType errType) ↔
      codeFallibleShape returnTy)
  ∧ ResultData.new ReturnType.default = ResultData.notResult unitTy := by
  refine ⟨?_, rfl⟩
  cases returnTy with
  | default => simp [ResultData.new, codeFallibleShape]
  | type t =>
    cases t with
    | notPath tag =>
      simp [ResultData.new, parse_actual_return_type, codeFallibleShape]
    | path qself lc segs =>
      cases qself with
      | true =>
        simp [ResultData.new, parse_actual_return_type, codeFallibleShape]
      | false =>
        have hnew : ResultData.new (ReturnType.type (Ty.path false lc segs)) =
            (extract_result_type lc segs).getD
              (ResultData.notResult (Ty.path false lc segs)) := rfl
        rw [hnew]
        cases segs with
        | nil =>
          simp [extract_result_type, extract_result_type_arguments,
            codeFallibleShape]
        | cons ident1 args1 rest =>
          by_cases h1 : ident1 = "Result" ∧ lc = false
          · obtain ⟨hi1, hl⟩ := h1
            subst hi1
            subst hl
            have hextract : extract_result_type false
                (SegList.cons "Result" args1 rest) =
                extract_from_arguments args1 := by
              simp [extract_result_type, extract_result_type_arguments]
            rw [hextract]
            constructor
            · intro hex
              have htwo : twoTypeArgs args1 :=
                (extract_from_arguments_result_iff args1).mp
                  (by
                    rcases hex with ⟨okType, errType, hgd⟩
                    exact ⟨okType, errType,
                      (getD_notResult_eq_result_iff _ _ _ _).mp hgd⟩)
              exact ⟨false, SegList.cons "Result" args1 rest, rfl,
                Or.inl ⟨args1, rest, rfl, rfl, htwo⟩⟩
            · rintro ⟨lc2, segs2, heq, hshape⟩
              simp only [ReturnType.type.injEq, Ty.path.injEq] at heq
              obtain ⟨hlc2, hsegs2⟩ := heq.2
              subst hlc2
              subst hsegs2
              rcases hshape with ⟨args, rest2, hc, _, htwo⟩ | ⟨a1, a2, args, rest2, hc, htwo⟩
              · simp only [SegList.cons.injEq] at hc
                obtain ⟨_, hargs, _⟩ := hc
                subst hargs
                rcases (extract_from_arguments_result_iff args1).mpr htwo with
                  ⟨okType, errType, hx⟩
                exact ⟨okType, errType,
                  (getD_notResult_eq_result_iff _ _ _ _).mpr hx⟩
              · simp only [SegList.cons.injEq] at hc
                exact absurd hc.1 (by decide)
          · cases rest with
            | nil =>
              have hextract : extract_result_type lc
                  (SegList.cons ident1 args1 SegList.nil) = none := by
                simp [extract_result_type, extract_result_type_arguments, h1]
              rw [hextract]
              simp only [Option.getD_none]
              constructor
              · rintro ⟨okType, errType, hx⟩
                exact absurd hx (by simp)
              · rintro ⟨lc2, segs2, heq, hshape⟩
                simp only [ReturnType.type.injEq, Ty.path.injEq] at heq
                obtain ⟨hlc2, hsegs2⟩ := heq.2
                subst hlc2
                subst hsegs2
                rcases hshape with ⟨args, rest2, hc, hlc, htwo⟩ |
                  ⟨a1, a2, args, rest2, hc, htwo⟩
                · simp only [SegList.cons.injEq] at hc
                  exact absurd ⟨hc.1, hlc⟩ h1
                · simp only [SegList.cons.injEq] at hc
                  exact absurd hc.2.2 (by simp)
            | cons ident2 args2 rest2 =>
              cases rest2 with
              | nil =>
                have hextract : extract_result_type lc
                    (SegList.cons ident1 args1
                      (SegList.cons ident2 args2 SegList.nil)) = none := by
                  simp [extract_result_type, extract_result_type_arguments, h1]
                rw [hextract]
                simp only [Option.getD_none]
                constructor
                · rintro ⟨okType, errType, hx⟩
                  exact absurd hx (by simp)
                · rintro ⟨lc2, segs2, heq, hshape⟩
                  simp only [ReturnType.type.injEq, Ty.path.injEq] at heq
                  obtain ⟨hlc2, hsegs2⟩ := heq.2
                  subst hlc2
                  subst hsegs2
                  rcases hshape with ⟨args, rest3, hc, hlc, htwo⟩ |
                    ⟨a1, a2, args, rest3, hc, htwo⟩
                  · simp only [SegList.cons.injEq] at hc
                    exact absurd ⟨hc.1, hlc⟩ h1
                  · simp only [SegList.cons.injEq] at hc
                    have := hc.2.2
                    simp at this
              | cons ident3 args3 rest3 =>
                by_cases h2 : ident1 = "std" ∧ ident2 = "result" ∧ ident3 = "Result"
                · obtain ⟨hi1, hi2, hi3⟩ := h2
                  subst hi1
                  subst hi2
                  subst hi3
                  have hextract : extract_result_type lc
                      (SegList.cons "std" args1
                        (SegList.cons "result" args2
                          (SegList.cons "Result" args3 rest3))) =
                      extract_from_arguments args3 := by
                    have h1x : ¬ ("std" = "Result" ∧ lc = false) := by
                      rintro ⟨hx, _⟩
                      simp at hx
                    simp [extract_result_type, extract_result_type_arguments, h1x]
                  rw [hextract]
                  constructor
                  · intro hex
                    have htwo : twoTypeArgs args3 :=
                      (extract_from_arguments_result_iff args3).mp
                        (by
                          rcases hex with ⟨okType, errType, hgd⟩
                          exact ⟨okType, errType,
                            (getD_notResult_eq_result_iff _ _ _ _).mp hgd⟩)
                    exact ⟨lc, _, rfl,
                      Or.inr ⟨args1, args2, args3, rest3, rfl, htwo⟩⟩
                  · rintro ⟨lc2, segs2, heq, hshape⟩
                    simp only [ReturnType.type.injEq, Ty.path.injEq] at heq
                    obtain ⟨hlc2, hsegs2⟩ := heq.2
                    subst hlc2
                    subst hsegs2
                    rcases hshape with ⟨args, rest4, hc, hlc, htwo⟩ |
                      ⟨a1, a2, args, rest4, hc, htwo⟩
                    · simp only [SegList.cons.injEq] at hc
                      have := hc.1
                      simp at this
                    · simp only [SegList.cons.injEq] at hc
                      obtain ⟨_, _, _, _, _, hargs, _⟩ := hc
                      subst hargs
                      rcases (extract_from_arguments_result_iff args3).mpr htwo with
                        ⟨okType, errType, hx⟩
                      exact ⟨okType, errType,
                        (getD_notResult_eq_result_iff _ _ _ _).mpr hx⟩
                · have hextract : extract_result_type lc
                      (SegList.cons ident1 args1
                        (SegList.cons ident2 args2
                          (SegList.cons ident3 args3 rest3))) = none := by
                    simp [extract_result_type, extract_result_type_arguments, h1, h2]
                  rw [hextract]
                  simp only [Option.getD_none]
                  constructor
                  · rintro ⟨okType, errType, hx⟩
                    exact absurd hx (by simp)
                  · rintro ⟨lc2, segs2, heq, hshape⟩
                    simp only [ReturnType.type.injEq, Ty.path.injEq] at heq
                    obtain ⟨hlc2, hsegs2⟩ := heq.2
                    subst hlc2
                    subst hsegs2
                    rcases hshape with ⟨args, rest4, hc, hlc, htwo⟩ |
                      ⟨a1, a2, args, rest4, hc, htwo⟩
                    · simp only [SegList.cons.injEq] at hc
                      exact absurd ⟨hc.1, hlc⟩ h1
                    · simp only [SegList.cons.injEq] at hc
                      obtain ⟨hcx1, _, hcx2, _, hcx3, _, _⟩ := hc
                      exact absurd ⟨hcx1, hcx2, hcx3⟩ h2
